import Mathlib

/-!
# Dual-write and start-up migration of `migration/main.go`

A shallow embedding of the Go program: the two record types, the two stores the
program talks to (a MongoDB database and a PostgreSQL database), the schema
initialiser `migratePostgresDB`, the bulk copy `migrateDataFromMongoToPostgres`
and the two HTTP handlers `createUser` and `createProduct`.

The stores are outside the program.  They are modelled by their contents plus
the calls the program made on them:

* a Mongo collection is the list of its documents in insertion order; a
  document either decodes into the Go struct or does not; a cursor yields the
  documents of its collection in order and can fail while it is iterated,
  after which `cursor.Next` returns false as it does at the end;
* the relational database is its catalogue (table name to declared columns)
  and the rows of the `users` and `products` tables in insertion order; a row
  is modelled by the columns the program writes (the `id` column is filled by
  the store and never read by the program);
* a store call can fail for a reason outside the program (connection lost,
  server error).  `Faults` says, for every call number of each store, whether
  that call fails this way, and for every cursor after how many documents it
  fails, if it does; a call that fails leaves the contents untouched.
-/

namespace Migration

/-! ## Data model -/

/-- A Go `float64`, carried as its IEEE-754 bit pattern: the program moves
prices between the stores and never computes with them. -/
structure Float64 where
  bits : Nat
deriving DecidableEq, Repr

/-- The `User` struct (lines 20-24). -/
structure User where
  Name : String
  Email : String
  Password : String
deriving DecidableEq, Repr

/-- The `Product` struct (lines 27-31). -/
structure Product where
  Name : String
  Price : Float64
  Description : String
deriving DecidableEq, Repr

/-- The errors the store clients and the JSON binder hand back to the program. -/
inductive Error where
  /-- the binder `c.ShouldBindJSON` rejected the request body -/
  | bind
  /-- the Mongo call with this number failed in the driver or the server -/
  | mongo (call : Nat)
  /-- the cursor opened by the Mongo call with this number failed while it was
  iterated -/
  | cursor (call : Nat)
  /-- the `Exec` call with this number failed in the driver or the server -/
  | postgres (call : Nat)
  /-- the column `users.email` is `UNIQUE` and the e-mail is already in the table -/
  | duplicateEmail
  /-- the call `cursor.Decode` could not fill the Go struct from the document -/
  | decode
deriving DecidableEq, Repr

/-- The text of an error, as `err.Error()` gives it in Go. -/
def Error.Error : Error → String
  | .bind => "invalid request body"
  | .mongo _ => "mongo: operation failed"
  | .cursor _ => "mongo: cursor failed"
  | .postgres _ => "pq: operation failed"
  | .duplicateEmail => "pq: duplicate key value violates unique constraint users_email_key"
  | .decode => "cannot decode document"

/-! ## The document store -/

/-- A stored document of a collection read as records of type `α`. -/
inductive Document (α : Type) where
  /-- the document decodes into this record -/
  | record (r : α)
  /-- the document does not decode into `α` -/
  | undecodable
deriving DecidableEq, Repr

/-- The database `migrationgo`: its collections `users` and `products`. -/
structure Mongo where
  users : List (Document User)
  products : List (Document Product)
deriving DecidableEq, Repr

/-- The result of `cursor.Decode(&v)`. -/
def Decode {α : Type} : Document α → Except Error α
  | .record r => .ok r
  | .undecodable => .error .decode

/-- The records of a collection that decode (those on which `Decode` returns
no error), in collection order. -/
def decodable {α : Type} (docs : List (Document α)) : List α :=
  docs.filterMap fun d => (Decode d).toOption

/-! ## The relational store -/

/-- Column types used by the two `CREATE TABLE` statements. -/
inductive SqlType where
  | serial
  | text
  | float
deriving DecidableEq, Repr

/-- A column declaration, with the constraints written after its type. -/
structure Column where
  name : String
  type : SqlType
  primaryKey : Bool
  notNull : Bool
  unique : Bool
deriving DecidableEq, Repr

/-- The structure of a table: its declared columns. -/
abbrev TableDef := List Column

/-- The columns of `CREATE TABLE IF NOT EXISTS users` (lines 61-66). -/
def usersTable : TableDef :=
  [ ⟨"id", .serial, true, false, false⟩,
    ⟨"name", .text, false, true, false⟩,
    ⟨"email", .text, false, true, true⟩,
    ⟨"password", .text, false, true, false⟩ ]

/-- The columns of `CREATE TABLE IF NOT EXISTS products` (lines 73-78). -/
def productsTable : TableDef :=
  [ ⟨"id", .serial, true, false, false⟩,
    ⟨"name", .text, false, true, false⟩,
    ⟨"price", .float, false, true, false⟩,
    ⟨"description", .text, false, false, false⟩ ]

/-- The statements the program passes to `Exec`. -/
inductive Stmt where
  /-- the statement `CREATE TABLE IF NOT EXISTS name (...)` -/
  | createTableIfNotExists (name : String) (columns : TableDef)
  /-- the statement `INSERT INTO users (name, email, password) VALUES ($1, $2, $3)`, followed
  by `ON CONFLICT (email) DO NOTHING` when the flag is set -/
  | insertUser (onConflictDoNothing : Bool) (u : User)
  /-- the statement `INSERT INTO products (name, price, description) VALUES ($1, $2, $3)` -/
  | insertProduct (p : Product)
deriving DecidableEq, Repr

/-- The relational database: catalogue and the rows of the two tables. The
inserts are modelled on the tables as `migratePostgresDB` declares them (`main`
runs it to completion before any insert). -/
structure Postgres where
  catalog : List (String × TableDef)
  users : List User
  products : List Product
deriving DecidableEq, Repr

/-- The e-mails present in the `users` table. -/
def Postgres.emails (db : Postgres) : List String :=
  db.users.map User.Email

/-! ## The world the program runs in -/

/-- A line written with `log.Printf`. -/
inductive LogLine where
  /-- the line `Error decoding MongoDB record: %v` -/
  | decoding (err : Error)
  /-- the line `Error inserting into PostgreSQL: %v` -/
  | inserting (err : Error)
deriving DecidableEq, Repr

/-- Both stores, the calls made on them so far and the log. -/
structure World where
  /-- contents of the document store (`mongoClient`) -/
  mongo : Mongo
  /-- contents of the relational store (`postgresDB`) -/
  pg : Postgres
  /-- number of calls made on the document store so far -/
  mongoCalls : Nat
  /-- every statement passed to `postgresDB.Exec` so far, oldest first -/
  execLog : List Stmt
  /-- the lines logged so far, oldest first -/
  logged : List LogLine
deriving DecidableEq, Repr

/-- Which store calls fail for a reason outside the program: `mongo n` for the
call number `n` on the document store, `pg n` for the `Exec` call number `n`;
`cursor n = some k` when the cursor opened by the call number `n` on the
document store fails once it has yielded `k` documents (`none`: it never fails). -/
structure Faults where
  mongo : Nat → Bool
  pg : Nat → Bool
  cursor : Nat → Option Nat

/-- Stores that never fail for an outside reason. -/
def noFaults : Faults := ⟨fun _ => false, fun _ => false, fun _ => none⟩

/-- The documents a cursor over `docs` yields before `cursor.Next` returns
false: all of them, or the first `k` when the cursor fails after `k` documents. -/
def yielded {α : Type} (stop : Option Nat) (docs : List (Document α)) : List (Document α) :=
  match stop with
  | none => docs
  | some k => docs.take k

/-- An open cursor, as the loop `for cursor.Next(ctx)` sees it: the documents
`Next` yields before it returns false, and what `cursor.Err()` holds once it
has returned false (`none` when the cursor was exhausted). -/
structure Cursor (α : Type) where
  docs : List (Document α)
  Err : Option Error
deriving DecidableEq, Repr

/-- The `collection.Find(ctx, bson.M{})` call on a collection holding `docs`: it fails,
or it opens a cursor over the documents of the collection as it is at call
time. The cursor can fail while it is iterated; it then stops short of the
documents left and keeps the error in `Err`. -/
def Find {α : Type} (f : Faults) (w : World) (docs : List (Document α)) :
    World × Except Error (Cursor α) :=
  let w1 := { w with mongoCalls := w.mongoCalls + 1 }
  if f.mongo w.mongoCalls then (w1, .error (.mongo w.mongoCalls))
  else
    (w1, .ok ⟨yielded (f.cursor w.mongoCalls) docs,
              if (yielded (f.cursor w.mongoCalls) docs).length < docs.length
              then some (.cursor w.mongoCalls) else none⟩)

/-- The `InsertOne(ctx, user)` call on the `users` collection: appends the document. -/
def InsertOneUser (f : Faults) (w : World) (user : User) : World × Option Error :=
  let w1 := { w with mongoCalls := w.mongoCalls + 1 }
  if f.mongo w.mongoCalls then (w1, some (.mongo w.mongoCalls))
  else ({ w1 with mongo := { w.mongo with users := w.mongo.users ++ [.record user] } }, none)

/-- The `InsertOne(ctx, product)` call on the `products` collection: appends the document. -/
def InsertOneProduct (f : Faults) (w : World) (product : Product) : World × Option Error :=
  let w1 := { w with mongoCalls := w.mongoCalls + 1 }
  if f.mongo w.mongoCalls then (w1, some (.mongo w.mongoCalls))
  else ({ w1 with mongo := { w.mongo with products := w.mongo.products ++ [.record product] } },
        none)

/-- The `postgresDB.Exec(query, args...)` call. The statement is logged; a fault leaves
the database as it is; otherwise the statement runs:
`CREATE TABLE IF NOT EXISTS` adds the table unless the name is taken; an insert
into `users` whose e-mail is present is skipped under `ON CONFLICT (email) DO
NOTHING` and is a uniqueness error without it; every other insert appends. -/
def Exec (f : Faults) (w : World) (q : Stmt) : World × Option Error :=
  let w1 := { w with execLog := w.execLog ++ [q] }
  if f.pg w.execLog.length then (w1, some (.postgres w.execLog.length))
  else
    match q with
    | .createTableIfNotExists name columns =>
      if (w.pg.catalog.lookup name).isSome then (w1, none)
      else ({ w1 with pg := { w.pg with catalog := w.pg.catalog ++ [(name, columns)] } }, none)
    | .insertUser onConflictDoNothing u =>
      if u.Email ∈ w.pg.emails then
        if onConflictDoNothing then (w1, none) else (w1, some .duplicateEmail)
      else ({ w1 with pg := { w.pg with users := w.pg.users ++ [u] } }, none)
    | .insertProduct p =>
      ({ w1 with pg := { w.pg with products := w.pg.products ++ [p] } }, none)

/-! ## The program -/

/-- Create PostgreSQL tables if not exists (`migratePostgresDB`, lines 58-81). -/
def migratePostgresDB (f : Faults) (w : World) : World × Option Error :=
  match Exec f w (.createTableIfNotExists "users" usersTable) with
  | (w1, some err) => (w1, some err)
  | (w1, none) => Exec f w1 (.createTableIfNotExists "products" productsTable)

/-- The loop over the documents the users cursor yields (lines 92-104): a document that does not
decode is logged and skipped; a decoded user is inserted with `ON CONFLICT
(email) DO NOTHING`, and an insert error is logged. -/
def migrateUsers (f : Faults) : List (Document User) → World → World
  | [], w => w
  | d :: cursor, w =>
    match Decode d with
    | .error err =>
      migrateUsers f cursor { w with logged := w.logged ++ [.decoding err] }
    | .ok user =>
      match Exec f w (.insertUser true user) with
      | (w1, some err) =>
        migrateUsers f cursor { w1 with logged := w1.logged ++ [.inserting err] }
      | (w1, none) => migrateUsers f cursor w1

/-- The loop over the documents the products cursor yields (lines 112-124). -/
def migrateProducts (f : Faults) : List (Document Product) → World → World
  | [], w => w
  | d :: cursor, w =>
    match Decode d with
    | .error err =>
      migrateProducts f cursor { w with logged := w.logged ++ [.decoding err] }
    | .ok product =>
      match Exec f w (.insertProduct product) with
      | (w1, some err) =>
        migrateProducts f cursor { w1 with logged := w1.logged ++ [.inserting err] }
      | (w1, none) => migrateProducts f cursor w1

/-- The world after `n` calls of `migratePostgresDB` in a row, whatever each
call returned. -/
def migratePostgresDBTimes (f : Faults) : Nat → World → World
  | 0, w => w
  | n + 1, w => migratePostgresDBTimes f n (migratePostgresDB f w).1

/-- Migrate data from MongoDB to PostgreSQL (`migrateDataFromMongoToPostgres`,
lines 84-126). The result is the returned `error` (`none` is `nil`). Each loop
runs while `cursor.Next` returns true, that is over `cursor.docs`; the program
never reads `cursor.Err()`, so `cursor.Err` is not used, and the deferred
`cursor.Close` changes nothing that is modelled. -/
def migrateDataFromMongoToPostgres (f : Faults) (w : World) : World × Option Error :=
  match Find f w w.mongo.users with
  | (w1, .error err) => (w1, some err)
  | (w1, .ok cursor) =>
    let w2 := migrateUsers f cursor.docs w1
    match Find f w2 w2.mongo.products with
    | (w3, .error err) => (w3, some err)
    | (w3, .ok cursor) => (migrateProducts f cursor.docs w3, none)

/-- The body of a request as `c.ShouldBindJSON` sees it. -/
inductive Request (α : Type) where
  /-- a JSON body that binds to this value -/
  | json (v : α)
  /-- a body that does not bind -/
  | malformed
deriving DecidableEq, Repr

/-- The result of `c.ShouldBindJSON(&v)`. -/
def ShouldBindJSON {α : Type} : Request α → Except Error α
  | .json v => .ok v
  | .malformed => .error .bind

/-- The answer written with `c.JSON(status, gin.H{key: text})`. -/
structure Response where
  status : Nat
  key : String
  text : String
deriving DecidableEq, Repr

/-- The constant `http.StatusOK`. -/
def StatusOK : Nat := 200
/-- The constant `http.StatusBadRequest`. -/
def StatusBadRequest : Nat := 400
/-- The constant `http.StatusInternalServerError`. -/
def StatusInternalServerError : Nat := 500

/-- CreateUser handler (`createUser`, lines 129-152). -/
def createUser (f : Faults) (w : World) (c : Request User) : World × Response :=
  match ShouldBindJSON c with
  | .error err => (w, ⟨StatusBadRequest, "error", err.Error⟩)
  | .ok user =>
    match InsertOneUser f w user with
    | (w1, some err) => (w1, ⟨StatusInternalServerError, "error", err.Error⟩)
    | (w1, none) =>
      match Exec f w1 (.insertUser false user) with
      | (w2, some err) =>
        (w2, ⟨StatusInternalServerError, "error",
          "Failed to insert into PostgreSQL: " ++ err.Error⟩)
      | (w2, none) =>
        (w2, ⟨StatusOK, "message", "User created successfully in MongoDB and PostgreSQL!"⟩)

/-- CreateProduct handler (`createProduct`, lines 155-178). -/
def createProduct (f : Faults) (w : World) (c : Request Product) : World × Response :=
  match ShouldBindJSON c with
  | .error err => (w, ⟨StatusBadRequest, "error", err.Error⟩)
  | .ok product =>
    match InsertOneProduct f w product with
    | (w1, some err) => (w1, ⟨StatusInternalServerError, "error", err.Error⟩)
    | (w1, none) =>
      match Exec f w1 (.insertProduct product) with
      | (w2, some err) =>
        (w2, ⟨StatusInternalServerError, "error",
          "Failed to insert into PostgreSQL: " ++ err.Error⟩)
      | (w2, none) =>
        (w2, ⟨StatusOK, "message", "Product created successfully in MongoDB and PostgreSQL!"⟩)

/-! ## Scenarios -/

/-- Two empty stores, with both tables created and nothing called yet. -/
def emptyWorld : World :=
  { mongo := ⟨[], []⟩
    pg := ⟨[("users", usersTable), ("products", productsTable)], [], []⟩
    mongoCalls := 0
    execLog := []
    logged := [] }

/-- The user of the body `{"name":"A","email":"a@x.com","password":"p"}`. -/
def userA : User := ⟨"A", "a@x.com", "p"⟩

/-- A product. -/
def pen : Product := ⟨"Pen", ⟨4609434218613702656⟩, "blue ink"⟩

/-- Stores where the first call on the document store fails and nothing else. -/
def firstMongoCallFails : Faults := ⟨fun n => n == 0, fun _ => false, fun _ => none⟩

/-- Stores where the second call on the document store fails and nothing else. -/
def secondMongoCallFails : Faults := ⟨fun n => n == 1, fun _ => false, fun _ => none⟩

/-- Stores where the first `Exec` call fails and nothing else. -/
def firstExecFails : Faults := ⟨fun _ => false, fun n => n == 0, fun _ => none⟩

/-- Stores where every cursor fails once it has yielded one document, and
nothing else fails. -/
def cursorsFailAfterOne : Faults := ⟨fun _ => false, fun _ => false, fun _ => some 1⟩

/-- Stores where the first cursor opened fails before it yields a document,
and nothing else fails. -/
def firstCursorFailsAtOnce : Faults :=
  ⟨fun _ => false, fun _ => false, fun n => if n = 0 then some 0 else none⟩

/-- Both `Find` calls of a run of the migration started in `w` succeed: they
are the next two calls on the document store. -/
def CursorsOpen (f : Faults) (w : World) : Prop :=
  f.mongo w.mongoCalls = false ∧ f.mongo (w.mongoCalls + 1) = false

/-- The users cursor of a run of the migration started in `w` yields every
document of the `users` collection: it does not fail before the last one. -/
def UsersCursorDrains (f : Faults) (w : World) : Prop :=
  yielded (f.cursor w.mongoCalls) w.mongo.users = w.mongo.users

/-- Both cursors of a run of the migration started in `w` yield every document
of their collection: neither fails before the last one. -/
def CursorsDrain (f : Faults) (w : World) : Prop :=
  yielded (f.cursor w.mongoCalls) w.mongo.users = w.mongo.users ∧
  yielded (f.cursor (w.mongoCalls + 1)) w.mongo.products = w.mongo.products

/-- The errors of the lines `Error inserting into PostgreSQL` of a log. -/
def insertErrors (log : List LogLine) : List Error :=
  log.filterMap fun line =>
    match line with
    | .inserting err => some err
    | .decoding _ => none

/-- No `Exec` call of the users loop of a run of the migration started in `w`
fails for an outside reason: the loop makes one call per decodable user. -/
def UserInsertsSucceed (f : Faults) (w : World) : Prop :=
  ∀ k, w.execLog.length ≤ k →
    k < w.execLog.length + (decodable w.mongo.users).length → f.pg k = false

/-- No `Exec` call of a run of the migration started in `w` fails for an
outside reason: the run makes one call per decodable user and product. -/
def InsertsSucceed (f : Faults) (w : World) : Prop :=
  ∀ k, w.execLog.length ≤ k →
    k < w.execLog.length + (decodable w.mongo.users).length
          + (decodable w.mongo.products).length → f.pg k = false

/-- Two more users, with e-mails of their own. -/
def userB : User := ⟨"B", "b@x.com", "q"⟩
/-- See `userB`. -/
def userC : User := ⟨"C", "c@x.com", "r"⟩

/-- Another product. -/
def ink : Product := ⟨"Ink", ⟨4612811918334230528⟩, ""⟩

/-- A document store with 3 users and 2 products, and an empty relational store. -/
def threeUsersTwoProducts : World :=
  { emptyWorld with mongo := ⟨[.record userA, .record userB, .record userC],
                              [.record pen, .record ink]⟩ }

/-- A relational store with no table at all, and an empty document store. -/
def freshDatabase : World :=
  { emptyWorld with pg := ⟨[], [], []⟩ }

/-- A relational store where a `users` table of another structure exists. -/
def legacyDatabase : World :=
  { emptyWorld with pg := ⟨[("users", [⟨"login", .text, true, false, false⟩])], [], []⟩ }

/-- A document store with documents that do not decode among those that do,
and an empty relational store. -/
def mixedDocuments : World :=
  { emptyWorld with mongo := ⟨[.record userA, .undecodable, .record userB],
                              [.undecodable, .record pen]⟩ }

/-- A document store with one user and one product, and an empty relational store. -/
def oneUserOneProduct : World :=
  { emptyWorld with mongo := ⟨[.record userA], [.record pen]⟩ }

/-! ## Facts about the store calls -/

theorem decodable_nil {α : Type} : decodable ([] : List (Document α)) = [] := rfl

theorem decodable_record {α : Type} (r : α) (ds : List (Document α)) :
    decodable (.record r :: ds) = r :: decodable ds := rfl

theorem decodable_undecodable {α : Type} (ds : List (Document α)) :
    decodable (.undecodable :: ds) = decodable ds := rfl

theorem InsertOneUser_ok {f : Faults} {w w1 : World} {u : User}
    (h : InsertOneUser f w u = (w1, none)) :
    w1 = { w with mongoCalls := w.mongoCalls + 1,
                  mongo := { w.mongo with users := w.mongo.users ++ [.record u] } } := by
  unfold InsertOneUser at h
  by_cases hf : f.mongo w.mongoCalls = true
  · simp [hf] at h
  · simp [hf] at h
    exact h.symm

theorem InsertOneUser_err {f : Faults} {w w1 : World} {u : User} {e : Error}
    (h : InsertOneUser f w u = (w1, some e)) :
    w1 = { w with mongoCalls := w.mongoCalls + 1 } := by
  unfold InsertOneUser at h
  by_cases hf : f.mongo w.mongoCalls = true
  · simp [hf] at h
    exact h.1.symm
  · simp [hf] at h

theorem InsertOneProduct_ok {f : Faults} {w w1 : World} {p : Product}
    (h : InsertOneProduct f w p = (w1, none)) :
    w1 = { w with mongoCalls := w.mongoCalls + 1,
                  mongo := { w.mongo with products := w.mongo.products ++ [.record p] } } := by
  unfold InsertOneProduct at h
  by_cases hf : f.mongo w.mongoCalls = true
  · simp [hf] at h
  · simp [hf] at h
    exact h.symm

theorem InsertOneProduct_err {f : Faults} {w w1 : World} {p : Product} {e : Error}
    (h : InsertOneProduct f w p = (w1, some e)) :
    w1 = { w with mongoCalls := w.mongoCalls + 1 } := by
  unfold InsertOneProduct at h
  by_cases hf : f.mongo w.mongoCalls = true
  · simp [hf] at h
    exact h.1.symm
  · simp [hf] at h

/-- A statement that returns an error changes nothing but the statement log. -/
theorem Exec_err {f : Faults} {w w1 : World} {q : Stmt} {e : Error}
    (h : Exec f w q = (w1, some e)) :
    w1 = { w with execLog := w.execLog ++ [q] } := by
  unfold Exec at h
  by_cases hf : f.pg w.execLog.length = true
  · simp [hf] at h
    exact h.1.symm
  · cases q with
    | createTableIfNotExists name columns =>
      by_cases hc : (w.pg.catalog.lookup name).isSome = true <;> simp [hf, hc] at h
    | insertUser oc u =>
      by_cases hm : u.Email ∈ w.pg.emails
      · cases oc <;> simp [hf, hm] at h
        exact h.1.symm
      · simp [hf, hm] at h
    | insertProduct p => simp [hf] at h

/-- A plain insert into `users` that returns no error appended the row, and
the e-mail was not in the table. -/
theorem Exec_insertUser_plain_ok {f : Faults} {w w1 : World} {u : User}
    (h : Exec f w (.insertUser false u) = (w1, none)) :
    u.Email ∉ w.pg.emails ∧
    w1 = { w with execLog := w.execLog ++ [.insertUser false u],
                  pg := { w.pg with users := w.pg.users ++ [u] } } := by
  unfold Exec at h
  by_cases hf : f.pg w.execLog.length = true
  · simp [hf] at h
  · by_cases hm : u.Email ∈ w.pg.emails
    · simp [hf, hm] at h
    · simp [hf, hm] at h
      exact ⟨hm, h.symm⟩

/-- An insert into `products` that returns no error appended the row. -/
theorem Exec_insertProduct_ok {f : Faults} {w w1 : World} {p : Product}
    (h : Exec f w (.insertProduct p) = (w1, none)) :
    w1 = { w with execLog := w.execLog ++ [.insertProduct p],
                  pg := { w.pg with products := w.pg.products ++ [p] } } := by
  unfold Exec at h
  by_cases hf : f.pg w.execLog.length = true
  · simp [hf] at h
  · simp [hf] at h
    exact h.symm

/-! ## The dual write -/

/-- C1: in `createUser`, when the document insert of `u` succeeds and the
relational insert that follows fails, the answer is 500, the document store is
the one before with `u` appended to `users` (nothing is rolled back) and the
relational store, the `users` table included, is unchanged. -/
theorem createUser_relational_failure (f : Faults) (w : World) (u : User)
    (hdoc : (InsertOneUser f w u).2 = none)
    (hrel : (Exec f (InsertOneUser f w u).1 (.insertUser false u)).2 ≠ none) :
    (createUser f w (.json u)).2.status = 500 ∧
    (createUser f w (.json u)).1.mongo.users = w.mongo.users ++ [.record u] ∧
    (createUser f w (.json u)).1.mongo.products = w.mongo.products ∧
    (createUser f w (.json u)).1.pg.users = w.pg.users ∧
    (createUser f w (.json u)).1.pg = w.pg := by
  rcases hI : InsertOneUser f w u with ⟨w1, e1⟩
  rw [hI] at hdoc hrel
  simp only at hdoc hrel
  subst hdoc
  rcases hE : Exec f w1 (.insertUser false u) with ⟨w2, e2⟩
  rw [hE] at hrel
  cases e2 with
  | none => exact absurd rfl hrel
  | some e =>
    have h1 := InsertOneUser_ok hI
    have h2 := Exec_err hE
    simp only [createUser, ShouldBindJSON, hI, hE]
    subst h2
    subst h1
    simp [StatusInternalServerError]

/-- C1 at a concrete input: the second `createUser` of the same body on two
empty stores. -/
theorem createUser_relational_failure_witness :
    (createUser noFaults (createUser noFaults emptyWorld (.json userA)).1 (.json userA)).2.status
      = 500 ∧
    (createUser noFaults (createUser noFaults emptyWorld (.json userA)).1 (.json userA)).1.mongo.users
      = [.record userA, .record userA] ∧
    (createUser noFaults (createUser noFaults emptyWorld (.json userA)).1 (.json userA)).1.pg.users
      = [userA] :=
  have h := createUser_relational_failure noFaults
    (createUser noFaults emptyWorld (.json userA)).1 userA (by decide) (by decide)
  ⟨h.1, h.2.1, h.2.2.2.1⟩

/-- C2: in `createUser` and in `createProduct`, when the document insert fails
the answer is 500, no statement is passed to the relational store, and both
stores are as before the call. -/
theorem dual_write_document_failure (f : Faults) (w : World) :
    (∀ u : User, (InsertOneUser f w u).2 ≠ none →
      (createUser f w (.json u)).2.status = 500 ∧
      (createUser f w (.json u)).1.execLog = w.execLog ∧
      (createUser f w (.json u)).1.pg = w.pg ∧
      (createUser f w (.json u)).1.mongo = w.mongo) ∧
    (∀ p : Product, (InsertOneProduct f w p).2 ≠ none →
      (createProduct f w (.json p)).2.status = 500 ∧
      (createProduct f w (.json p)).1.execLog = w.execLog ∧
      (createProduct f w (.json p)).1.pg = w.pg ∧
      (createProduct f w (.json p)).1.mongo = w.mongo) := by
  constructor
  · intro u h
    rcases hI : InsertOneUser f w u with ⟨w1, e1⟩
    rw [hI] at h
    cases e1 with
    | none => exact absurd rfl h
    | some e =>
      have h1 := InsertOneUser_err hI
      simp only [createUser, ShouldBindJSON, hI]
      subst h1
      simp [StatusInternalServerError]
  · intro p h
    rcases hI : InsertOneProduct f w p with ⟨w1, e1⟩
    rw [hI] at h
    cases e1 with
    | none => exact absurd rfl h
    | some e =>
      have h1 := InsertOneProduct_err hI
      simp only [createProduct, ShouldBindJSON, hI]
      subst h1
      simp [StatusInternalServerError]

/-- C2 at a concrete input: the document store fails on its first call. -/
theorem dual_write_document_failure_witness :
    ((createUser firstMongoCallFails emptyWorld (.json userA)).2.status = 500 ∧
      (createUser firstMongoCallFails emptyWorld (.json userA)).1.execLog = [] ∧
      (createUser firstMongoCallFails emptyWorld (.json userA)).1.pg = emptyWorld.pg ∧
      (createUser firstMongoCallFails emptyWorld (.json userA)).1.mongo = emptyWorld.mongo) ∧
    ((createProduct firstMongoCallFails emptyWorld (.json pen)).2.status = 500 ∧
      (createProduct firstMongoCallFails emptyWorld (.json pen)).1.execLog = [] ∧
      (createProduct firstMongoCallFails emptyWorld (.json pen)).1.pg = emptyWorld.pg ∧
      (createProduct firstMongoCallFails emptyWorld (.json pen)).1.mongo = emptyWorld.mongo) :=
  ⟨(dual_write_document_failure firstMongoCallFails emptyWorld).1 userA (by decide),
   (dual_write_document_failure firstMongoCallFails emptyWorld).2 pen (by decide)⟩

/-- C3 fails as stated: on two empty stores that never fault, the second
`createProduct` of the same body answers 200 and leaves two matching records
in the document store and two matching rows in the relational store. -/
theorem createProduct_twice_two_matching :
    (createProduct noFaults (createProduct noFaults emptyWorld (.json pen)).1 (.json pen)).2.status
      = 200 ∧
    (createProduct noFaults (createProduct noFaults emptyWorld (.json pen)).1
      (.json pen)).1.mongo.products.count (.record pen) = 2 ∧
    (createProduct noFaults (createProduct noFaults emptyWorld (.json pen)).1
      (.json pen)).1.pg.products.count pen = 2 := by
  decide

/-- C3 as amended: a `createUser` answering 200 appended `u` to the `users`
collection and to the `users` table, whose only row with the e-mail of `u` is
then `u`; a `createProduct` answering 200 appended `p` to the `products`
collection and to the `products` table. Each store thus holds one more
matching record than before. -/
theorem dual_write_success_appends (f : Faults) (w : World) :
    (∀ u : User, (createUser f w (.json u)).2.status = 200 →
      (createUser f w (.json u)).1.mongo.users = w.mongo.users ++ [.record u] ∧
      (createUser f w (.json u)).1.mongo.products = w.mongo.products ∧
      (createUser f w (.json u)).1.pg.users = w.pg.users ++ [u] ∧
      (createUser f w (.json u)).1.pg.products = w.pg.products ∧
      (createUser f w (.json u)).1.mongo.users.count (.record u)
        = w.mongo.users.count (.record u) + 1 ∧
      (createUser f w (.json u)).1.pg.users.filter (fun r => r.Email == u.Email) = [u]) ∧
    (∀ p : Product, (createProduct f w (.json p)).2.status = 200 →
      (createProduct f w (.json p)).1.mongo.products = w.mongo.products ++ [.record p] ∧
      (createProduct f w (.json p)).1.mongo.users = w.mongo.users ∧
      (createProduct f w (.json p)).1.pg.products = w.pg.products ++ [p] ∧
      (createProduct f w (.json p)).1.pg.users = w.pg.users ∧
      (createProduct f w (.json p)).1.mongo.products.count (.record p)
        = w.mongo.products.count (.record p) + 1 ∧
      (createProduct f w (.json p)).1.pg.products.count p = w.pg.products.count p + 1) := by
  constructor
  · intro u h
    rcases hI : InsertOneUser f w u with ⟨w1, e1⟩
    cases e1 with
    | some e =>
      simp [createUser, ShouldBindJSON, hI, StatusInternalServerError] at h
    | none =>
      rcases hE : Exec f w1 (.insertUser false u) with ⟨w2, e2⟩
      cases e2 with
      | some e =>
        simp [createUser, ShouldBindJSON, hI, hE, StatusInternalServerError] at h
      | none =>
        have h1 := InsertOneUser_ok hI
        obtain ⟨hnew, h2⟩ := Exec_insertUser_plain_ok hE
        simp only [createUser, ShouldBindJSON, hI, hE]
        subst h2
        subst h1
        have hfil : w.pg.users.filter (fun r => r.Email == u.Email) = [] := by
          rw [List.filter_eq_nil_iff]
          intro r hr hre
          apply hnew
          simp only [Postgres.emails, List.mem_map]
          exact ⟨r, hr, by simpa using hre⟩
        simp [hfil]
  · intro p h
    rcases hI : InsertOneProduct f w p with ⟨w1, e1⟩
    cases e1 with
    | some e =>
      simp [createProduct, ShouldBindJSON, hI, StatusInternalServerError] at h
    | none =>
      rcases hE : Exec f w1 (.insertProduct p) with ⟨w2, e2⟩
      cases e2 with
      | some e =>
        simp [createProduct, ShouldBindJSON, hI, hE, StatusInternalServerError] at h
      | none =>
        have h1 := InsertOneProduct_ok hI
        have h2 := Exec_insertProduct_ok hE
        simp only [createProduct, ShouldBindJSON, hI, hE]
        subst h2
        subst h1
        simp

/-- C3 as amended, at a concrete input: the first `createUser` and the first
`createProduct` on two empty stores. -/
theorem dual_write_success_appends_witness :
    ((createUser noFaults emptyWorld (.json userA)).1.mongo.users = [.record userA] ∧
      (createUser noFaults emptyWorld (.json userA)).1.pg.users = [userA]) ∧
    ((createProduct noFaults emptyWorld (.json pen)).1.mongo.products = [.record pen] ∧
      (createProduct noFaults emptyWorld (.json pen)).1.pg.products = [pen]) :=
  have hu := (dual_write_success_appends noFaults emptyWorld).1 userA (by decide)
  have hp := (dual_write_success_appends noFaults emptyWorld).2 pen (by decide)
  ⟨⟨hu.1, hu.2.2.1⟩, ⟨hp.1, hp.2.2.1⟩⟩

/-- C5: on two empty stores that fail only on a uniqueness violation, the
first `createUser` of the body answers 200 and the record is in both stores;
the second answers 500, the `users` table still holds exactly one row with that
e-mail and the `users` collection holds two records with it. -/
theorem createUser_twice_scenario :
    (createUser noFaults emptyWorld (.json userA)).2.status = 200 ∧
    (createUser noFaults emptyWorld (.json userA)).1.mongo.users = [.record userA] ∧
    (createUser noFaults emptyWorld (.json userA)).1.pg.users = [userA] ∧
    (createUser noFaults (createUser noFaults emptyWorld (.json userA)).1
      (.json userA)).2.status = 500 ∧
    (createUser noFaults (createUser noFaults emptyWorld (.json userA)).1
      (.json userA)).1.pg.users.filter (fun r => r.Email == "a@x.com") = [userA] ∧
    (createUser noFaults (createUser noFaults emptyWorld (.json userA)).1
      (.json userA)).1.mongo.users = [.record userA, .record userA] := by
  decide

/-! ## The bulk copy: one step of each loop -/

/-- One decoded user in the users loop: one `Exec`, after which the table is
as before (the call failed or the e-mail was present) or has the user appended. -/
theorem migrateUsers_record (f : Faults) (u : User) (cursor : List (Document User))
    (w : World) :
    ∃ w1 : World,
      migrateUsers f (.record u :: cursor) w = migrateUsers f cursor w1 ∧
      w1.execLog = w.execLog ++ [.insertUser true u] ∧
      w1.mongo = w.mongo ∧ w1.mongoCalls = w.mongoCalls ∧
      w1.pg.catalog = w.pg.catalog ∧ w1.pg.products = w.pg.products ∧
      ((w1.pg.users = w.pg.users ∧
          (f.pg w.execLog.length = true ∨ u.Email ∈ w.pg.emails)) ∨
       (w1.pg.users = w.pg.users ++ [u] ∧ u.Email ∉ w.pg.emails ∧
          f.pg w.execLog.length = false)) := by
  by_cases hf : f.pg w.execLog.length = true
  · refine ⟨{ w with execLog := w.execLog ++ [.insertUser true u],
                     logged := w.logged ++ [.inserting (.postgres w.execLog.length)] },
      ?_, rfl, rfl, rfl, rfl, rfl, Or.inl ⟨rfl, Or.inl hf⟩⟩
    simp [migrateUsers, Decode, Exec, hf]
  · by_cases hm : u.Email ∈ w.pg.emails
    · refine ⟨{ w with execLog := w.execLog ++ [.insertUser true u] },
        ?_, rfl, rfl, rfl, rfl, rfl, Or.inl ⟨rfl, Or.inr hm⟩⟩
      simp [migrateUsers, Decode, Exec, hf, hm]
    · refine ⟨{ w with execLog := w.execLog ++ [.insertUser true u],
                       pg := { w.pg with users := w.pg.users ++ [u] } },
        ?_, rfl, rfl, rfl, rfl, rfl, Or.inr ⟨rfl, hm, by simpa using hf⟩⟩
      simp [migrateUsers, Decode, Exec, hf, hm]

/-- A document that does not decode is logged and skipped. -/
theorem migrateUsers_undecodable (f : Faults) (cursor : List (Document User)) (w : World) :
    migrateUsers f (.undecodable :: cursor) w
      = migrateUsers f cursor { w with logged := w.logged ++ [.decoding .decode] } := by
  simp [migrateUsers, Decode]

/-- One decoded product in the products loop: one `Exec`, after which the table
is as before (the call failed) or has the product appended. -/
theorem migrateProducts_record (f : Faults) (p : Product) (cursor : List (Document Product))
    (w : World) :
    ∃ w1 : World,
      migrateProducts f (.record p :: cursor) w = migrateProducts f cursor w1 ∧
      w1.execLog = w.execLog ++ [.insertProduct p] ∧
      w1.mongo = w.mongo ∧ w1.mongoCalls = w.mongoCalls ∧
      w1.pg.catalog = w.pg.catalog ∧ w1.pg.users = w.pg.users ∧
      ((w1.pg.products = w.pg.products ∧ f.pg w.execLog.length = true) ∨
       (w1.pg.products = w.pg.products ++ [p] ∧ f.pg w.execLog.length = false)) := by
  by_cases hf : f.pg w.execLog.length = true
  · refine ⟨{ w with execLog := w.execLog ++ [.insertProduct p],
                     logged := w.logged ++ [.inserting (.postgres w.execLog.length)] },
      ?_, rfl, rfl, rfl, rfl, rfl, Or.inl ⟨rfl, hf⟩⟩
    simp [migrateProducts, Decode, Exec, hf]
  · refine ⟨{ w with execLog := w.execLog ++ [.insertProduct p],
                     pg := { w.pg with products := w.pg.products ++ [p] } },
      ?_, rfl, rfl, rfl, rfl, rfl, Or.inr ⟨rfl, by simpa using hf⟩⟩
    simp [migrateProducts, Decode, Exec, hf]

/-- A product document that does not decode is logged and skipped. -/
theorem migrateProducts_undecodable (f : Faults) (cursor : List (Document Product))
    (w : World) :
    migrateProducts f (.undecodable :: cursor) w
      = migrateProducts f cursor { w with logged := w.logged ++ [.decoding .decode] } := by
  simp [migrateProducts, Decode]

/-! ## The bulk copy: the two loops -/

/-- The users loop passes one insert per decodable document to `Exec`, in
cursor order, and touches nothing but the `users` table and the logs. -/
theorem migrateUsers_frame (f : Faults) (cursor : List (Document User)) (w : World) :
    (migrateUsers f cursor w).execLog
      = w.execLog ++ (decodable cursor).map (Stmt.insertUser true) ∧
    (migrateUsers f cursor w).mongo = w.mongo ∧
    (migrateUsers f cursor w).mongoCalls = w.mongoCalls ∧
    (migrateUsers f cursor w).pg.catalog = w.pg.catalog ∧
    (migrateUsers f cursor w).pg.products = w.pg.products := by
  induction cursor generalizing w with
  | nil => simp [migrateUsers, decodable_nil, decodable_record, decodable_undecodable]
  | cons d ds ih =>
    cases d with
    | undecodable =>
      rw [migrateUsers_undecodable]
      simpa [decodable_nil, decodable_record, decodable_undecodable] using ih { w with logged := w.logged ++ [.decoding .decode] }
    | record u =>
      obtain ⟨w1, hstep, hlog, hm, hc, hcat, hp, -⟩ := migrateUsers_record f u ds w
      rw [hstep]
      obtain ⟨i1, i2, i3, i4, i5⟩ := ih w1
      refine ⟨?_, i2.trans hm, i3.trans hc, i4.trans hcat, i5.trans hp⟩
      rw [i1, hlog]
      simp [decodable_nil, decodable_record, decodable_undecodable]

/-- The products loop passes one insert per decodable document to `Exec`, in
cursor order, and touches nothing but the `products` table and the logs. -/
theorem migrateProducts_frame (f : Faults) (cursor : List (Document Product)) (w : World) :
    (migrateProducts f cursor w).execLog
      = w.execLog ++ (decodable cursor).map Stmt.insertProduct ∧
    (migrateProducts f cursor w).mongo = w.mongo ∧
    (migrateProducts f cursor w).mongoCalls = w.mongoCalls ∧
    (migrateProducts f cursor w).pg.catalog = w.pg.catalog ∧
    (migrateProducts f cursor w).pg.users = w.pg.users := by
  induction cursor generalizing w with
  | nil => simp [migrateProducts, decodable_nil, decodable_record, decodable_undecodable]
  | cons d ds ih =>
    cases d with
    | undecodable =>
      rw [migrateProducts_undecodable]
      simpa [decodable_nil, decodable_record, decodable_undecodable] using ih { w with logged := w.logged ++ [.decoding .decode] }
    | record p =>
      obtain ⟨w1, hstep, hlog, hm, hc, hcat, hu, -⟩ := migrateProducts_record f p ds w
      rw [hstep]
      obtain ⟨i1, i2, i3, i4, i5⟩ := ih w1
      refine ⟨?_, i2.trans hm, i3.trans hc, i4.trans hcat, i5.trans hu⟩
      rw [i1, hlog]
      simp [decodable_nil, decodable_record, decodable_undecodable]

/-- The users loop keeps the e-mails of the `users` table pairwise distinct,
whatever fails. -/
theorem migrateUsers_nodup (f : Faults) (cursor : List (Document User)) (w : World)
    (h : w.pg.emails.Nodup) : (migrateUsers f cursor w).pg.emails.Nodup := by
  induction cursor generalizing w with
  | nil => simpa [migrateUsers] using h
  | cons d ds ih =>
    cases d with
    | undecodable =>
      rw [migrateUsers_undecodable]
      exact ih _ h
    | record u =>
      obtain ⟨w1, hstep, -, -, -, -, -, hu⟩ := migrateUsers_record f u ds w
      rw [hstep]
      apply ih
      rcases hu with ⟨hsame, -⟩ | ⟨happ, hnew, -⟩
      · simpa [Postgres.emails, hsame] using h
      · have h0 : (w.pg.users.map User.Email).Nodup := h
        have h1 : u.Email ∉ w.pg.users.map User.Email := hnew
        simp only [Postgres.emails, happ, List.map_append, List.map_cons, List.map_nil]
        exact List.Nodup.append h0 (List.nodup_singleton _) (by simpa using h1)

/-- The users loop never removes a row: an e-mail present before is present after. -/
theorem migrateUsers_keeps (f : Faults) (cursor : List (Document User)) (w : World)
    (e : String) (h : e ∈ w.pg.emails) : e ∈ (migrateUsers f cursor w).pg.emails := by
  induction cursor generalizing w with
  | nil => simpa [migrateUsers] using h
  | cons d ds ih =>
    cases d with
    | undecodable =>
      rw [migrateUsers_undecodable]
      exact ih _ h
    | record u =>
      obtain ⟨w1, hstep, -, -, -, -, -, hu⟩ := migrateUsers_record f u ds w
      rw [hstep]
      apply ih
      rcases hu with ⟨hsame, -⟩ | ⟨happ, -, -⟩
      · simpa [Postgres.emails, hsame] using h
      · have h0 : e ∈ w.pg.users.map User.Email := h
        simp only [Postgres.emails, happ, List.map_append, List.mem_append]
        exact Or.inl h0

/-- When every decodable document has its e-mail in the table already, the
users loop leaves the table as it is, whatever fails. -/
theorem migrateUsers_noop (f : Faults) (cursor : List (Document User)) (w : World)
    (h : ∀ u ∈ decodable cursor, u.Email ∈ w.pg.emails) :
    (migrateUsers f cursor w).pg.users = w.pg.users := by
  induction cursor generalizing w with
  | nil => simp [migrateUsers]
  | cons d ds ih =>
    cases d with
    | undecodable =>
      rw [migrateUsers_undecodable]
      exact ih _ (by simpa [decodable_nil, decodable_record, decodable_undecodable] using h)
    | record u =>
      obtain ⟨w1, hstep, -, -, -, -, -, hu⟩ := migrateUsers_record f u ds w
      rw [hstep]
      have hmem : u.Email ∈ w.pg.emails := h u (by simp [decodable_nil, decodable_record, decodable_undecodable])
      rcases hu with ⟨hsame, -⟩ | ⟨-, hnew, -⟩
      · rw [ih w1, hsame]
        intro v hv
        have := h v (by simp [decodable_nil, decodable_record, decodable_undecodable, hv])
        simpa [Postgres.emails, hsame] using this
      · exact absurd hmem hnew

/-- When no insert of the users loop fails, every decodable document has its
e-mail in the table after the loop. -/
theorem migrateUsers_present (f : Faults) (cursor : List (Document User)) (w : World)
    (h : ∀ k, w.execLog.length ≤ k → k < w.execLog.length + (decodable cursor).length →
      f.pg k = false) :
    ∀ u ∈ decodable cursor, u.Email ∈ (migrateUsers f cursor w).pg.emails := by
  induction cursor generalizing w with
  | nil => simp [decodable_nil, decodable_record, decodable_undecodable]
  | cons d ds ih =>
    cases d with
    | undecodable =>
      rw [migrateUsers_undecodable]
      exact ih _ (by simpa [decodable_nil, decodable_record, decodable_undecodable] using h)
    | record u =>
      obtain ⟨w1, hstep, hlog, -, -, -, -, hu⟩ := migrateUsers_record f u ds w
      rw [hstep]
      have hlen : w1.execLog.length = w.execLog.length + 1 := by simp [hlog]
      have hnow : f.pg w.execLog.length = false :=
        h _ (Nat.le_refl _) (by simp [decodable_nil, decodable_record, decodable_undecodable])
      have hin : u.Email ∈ w1.pg.emails := by
        rcases hu with ⟨hsame, hf | hm⟩ | ⟨happ, -, -⟩
        · rw [hnow] at hf
          exact absurd hf (by decide)
        · simpa [Postgres.emails, hsame] using hm
        · simp [Postgres.emails, happ]
      intro v hv
      simp only [decodable_nil, decodable_record, decodable_undecodable, List.mem_cons] at hv
      rcases hv with rfl | hv
      · exact migrateUsers_keeps f ds w1 _ hin
      · apply ih w1 _ v hv
        intro k hk1 hk2
        apply h k
        · omega
        · simp only [decodable_nil, decodable_record, decodable_undecodable, List.length_cons]
          omega

/-- When no insert of the products loop fails, the loop appends the decodable
documents to the `products` table, in cursor order. -/
theorem migrateProducts_appends (f : Faults) (cursor : List (Document Product)) (w : World)
    (h : ∀ k, w.execLog.length ≤ k → k < w.execLog.length + (decodable cursor).length →
      f.pg k = false) :
    (migrateProducts f cursor w).pg.products = w.pg.products ++ decodable cursor := by
  induction cursor generalizing w with
  | nil => simp [migrateProducts, decodable_nil, decodable_record, decodable_undecodable]
  | cons d ds ih =>
    cases d with
    | undecodable =>
      rw [migrateProducts_undecodable]
      simpa [decodable_nil, decodable_record, decodable_undecodable] using ih { w with logged := w.logged ++ [.decoding .decode] }
        (by simpa [decodable_nil, decodable_record, decodable_undecodable] using h)
    | record p =>
      obtain ⟨w1, hstep, hlog, -, -, -, -, hp⟩ := migrateProducts_record f p ds w
      rw [hstep]
      have hlen : w1.execLog.length = w.execLog.length + 1 := by simp [hlog]
      have hnow : f.pg w.execLog.length = false :=
        h _ (Nat.le_refl _) (by simp [decodable_nil, decodable_record, decodable_undecodable])
      rcases hp with ⟨-, hf⟩ | ⟨happ, -⟩
      · rw [hnow] at hf
        exact absurd hf (by decide)
      · rw [ih w1, happ]
        · simp [decodable_nil, decodable_record, decodable_undecodable]
        · intro k hk1 hk2
          apply h k
          · omega
          · simp only [decodable_nil, decodable_record, decodable_undecodable, List.length_cons]
            omega

/-! ## The bulk copy: the log and the cursors -/

theorem insertErrors_append (a b : List LogLine) :
    insertErrors (a ++ b) = insertErrors a ++ insertErrors b := by
  simp [insertErrors, List.filterMap_append]

/-- The decodable documents a cursor yields are among the decodable documents
of its collection, in the same order. -/
theorem decodable_yielded {α : Type} (stop : Option Nat) (docs : List (Document α)) :
    (decodable (yielded stop docs)).Sublist (decodable docs) := by
  cases stop with
  | none => exact List.Sublist.refl _
  | some k => exact (List.take_sublist k docs).filterMap _

/-- An insert of the users loop that does not fail for an outside reason logs
nothing: with `ON CONFLICT (email) DO NOTHING` a present e-mail is no error. -/
theorem migrateUsers_record_quiet (f : Faults) (u : User) (cursor : List (Document User))
    (w : World) (hf : f.pg w.execLog.length = false) :
    ∃ w1 : World,
      migrateUsers f (.record u :: cursor) w = migrateUsers f cursor w1 ∧
      w1.execLog = w.execLog ++ [.insertUser true u] ∧ w1.logged = w.logged := by
  by_cases hm : u.Email ∈ w.pg.emails
  · refine ⟨{ w with execLog := w.execLog ++ [.insertUser true u] }, ?_, rfl, rfl⟩
    simp [migrateUsers, Decode, Exec, hf, hm]
  · refine ⟨{ w with execLog := w.execLog ++ [.insertUser true u],
                     pg := { w.pg with users := w.pg.users ++ [u] } }, ?_, rfl, rfl⟩
    simp [migrateUsers, Decode, Exec, hf, hm]

/-- An insert of the products loop that does not fail for an outside reason
logs nothing. -/
theorem migrateProducts_record_quiet (f : Faults) (p : Product)
    (cursor : List (Document Product)) (w : World) (hf : f.pg w.execLog.length = false) :
    ∃ w1 : World,
      migrateProducts f (.record p :: cursor) w = migrateProducts f cursor w1 ∧
      w1.execLog = w.execLog ++ [.insertProduct p] ∧ w1.logged = w.logged := by
  refine ⟨{ w with execLog := w.execLog ++ [.insertProduct p],
                   pg := { w.pg with products := w.pg.products ++ [p] } }, ?_, rfl, rfl⟩
  simp [migrateProducts, Decode, Exec, hf]

/-- While no insert fails for an outside reason the users loop logs no insert
error, whatever e-mails the table holds. -/
theorem migrateUsers_insertErrors (f : Faults) (cursor : List (Document User)) (w : World)
    (h : ∀ k, w.execLog.length ≤ k → k < w.execLog.length + (decodable cursor).length →
      f.pg k = false) :
    insertErrors (migrateUsers f cursor w).logged = insertErrors w.logged := by
  induction cursor generalizing w with
  | nil => simp [migrateUsers]
  | cons d ds ih =>
    cases d with
    | undecodable =>
      rw [migrateUsers_undecodable, ih _ (by simpa [decodable_undecodable] using h)]
      simp [insertErrors]
    | record u =>
      obtain ⟨w1, hstep, hlog, hquiet⟩ := migrateUsers_record_quiet f u ds w
        (h _ (Nat.le_refl _) (by simp [decodable_record]))
      have hlen : w1.execLog.length = w.execLog.length + 1 := by simp [hlog]
      rw [hstep, ih w1, hquiet]
      intro k hk1 hk2
      apply h k
      · omega
      · simp only [decodable_record, List.length_cons]
        omega

/-- While no insert fails for an outside reason the products loop logs no
insert error. -/
theorem migrateProducts_insertErrors (f : Faults) (cursor : List (Document Product))
    (w : World)
    (h : ∀ k, w.execLog.length ≤ k → k < w.execLog.length + (decodable cursor).length →
      f.pg k = false) :
    insertErrors (migrateProducts f cursor w).logged = insertErrors w.logged := by
  induction cursor generalizing w with
  | nil => simp [migrateProducts]
  | cons d ds ih =>
    cases d with
    | undecodable =>
      rw [migrateProducts_undecodable, ih _ (by simpa [decodable_undecodable] using h)]
      simp [insertErrors]
    | record p =>
      obtain ⟨w1, hstep, hlog, hquiet⟩ := migrateProducts_record_quiet f p ds w
        (h _ (Nat.le_refl _) (by simp [decodable_record]))
      have hlen : w1.execLog.length = w.execLog.length + 1 := by simp [hlog]
      rw [hstep, ih w1, hquiet]
      intro k hk1 hk2
      apply h k
      · omega
      · simp only [decodable_record, List.length_cons]
        omega

/-! ## The bulk copy: a whole run -/

/-- When the users cursor does not open the run stops there: the error is
returned and only the call counter of the document store has moved. -/
theorem migrate_users_cursor_error (f : Faults) (w : World)
    (h : f.mongo w.mongoCalls = true) :
    migrateDataFromMongoToPostgres f w
      = ({ w with mongoCalls := w.mongoCalls + 1 }, some (.mongo w.mongoCalls)) := by
  simp [migrateDataFromMongoToPostgres, Find, h]

/-- When the users cursor opens and the products cursor does not, the run
returns the error after the users loop has run over what its cursor yielded. -/
theorem migrate_products_cursor_error (f : Faults) (w : World)
    (h1 : f.mongo w.mongoCalls = false) (h2 : f.mongo (w.mongoCalls + 1) = true) :
    migrateDataFromMongoToPostgres f w
      = ({ migrateUsers f (yielded (f.cursor w.mongoCalls) w.mongo.users)
              { w with mongoCalls := w.mongoCalls + 1 } with
            mongoCalls := w.mongoCalls + 2 },
         some (.mongo (w.mongoCalls + 1))) := by
  obtain ⟨-, -, hc, -, -⟩ :=
    migrateUsers_frame f (yielded (f.cursor w.mongoCalls) w.mongo.users)
      { w with mongoCalls := w.mongoCalls + 1 }
  simp only at hc
  simp [migrateDataFromMongoToPostgres, Find, h1, hc, h2]

/-- When both cursors open the run is the users loop followed by the products
loop, each over what its cursor yields, and it returns `nil`. -/
theorem migrate_cursors_open (f : Faults) (w : World) (h : CursorsOpen f w) :
    migrateDataFromMongoToPostgres f w
      = (migrateProducts f (yielded (f.cursor (w.mongoCalls + 1)) w.mongo.products)
          { migrateUsers f (yielded (f.cursor w.mongoCalls) w.mongo.users)
              { w with mongoCalls := w.mongoCalls + 1 } with
            mongoCalls := w.mongoCalls + 2 },
         none) := by
  obtain ⟨-, hm, hc, -, -⟩ :=
    migrateUsers_frame f (yielded (f.cursor w.mongoCalls) w.mongo.users)
      { w with mongoCalls := w.mongoCalls + 1 }
  simp only at hc hm
  simp [migrateDataFromMongoToPostgres, Find, h.1, hc, h.2, hm]

/-- Every run falls under one of the three cases above. -/
theorem migrate_cases (f : Faults) (w : World) :
    f.mongo w.mongoCalls = true ∨
    (f.mongo w.mongoCalls = false ∧ f.mongo (w.mongoCalls + 1) = true) ∨
    CursorsOpen f w := by
  unfold CursorsOpen
  cases f.mongo w.mongoCalls <;> cases f.mongo (w.mongoCalls + 1) <;> simp

/-- A run never writes to the document store. -/
theorem migrate_mongo (f : Faults) (w : World) :
    (migrateDataFromMongoToPostgres f w).1.mongo = w.mongo := by
  obtain ⟨-, hm, -, -, -⟩ :=
    migrateUsers_frame f (yielded (f.cursor w.mongoCalls) w.mongo.users)
      { w with mongoCalls := w.mongoCalls + 1 }
  rcases migrate_cases f w with h1 | ⟨h1, h2⟩ | hopen
  · rw [migrate_users_cursor_error f w h1]
  · rw [migrate_products_cursor_error f w h1 h2]
    exact hm
  · rw [migrate_cursors_open f w hopen]
    exact (migrateProducts_frame f _ _).2.1.trans hm

/-- After a run the `users` table is the one before (the users cursor did not
open) or the one the users loop left. -/
theorem migrate_users_table (f : Faults) (w : World) :
    (migrateDataFromMongoToPostgres f w).1.pg.users = w.pg.users ∨
    (migrateDataFromMongoToPostgres f w).1.pg.users
      = (migrateUsers f (yielded (f.cursor w.mongoCalls) w.mongo.users)
          { w with mongoCalls := w.mongoCalls + 1 }).pg.users := by
  rcases migrate_cases f w with h1 | ⟨h1, h2⟩ | hopen
  · rw [migrate_users_cursor_error f w h1]
    exact Or.inl rfl
  · rw [migrate_products_cursor_error f w h1 h2]
    exact Or.inr rfl
  · rw [migrate_cursors_open f w hopen]
    exact Or.inr (migrateProducts_frame f _ _).2.2.2.2

/-- A run keeps the e-mails of the `users` table pairwise distinct, whatever fails. -/
theorem migrate_nodup (f : Faults) (w : World) (h : w.pg.emails.Nodup) :
    (migrateDataFromMongoToPostgres f w).1.pg.emails.Nodup := by
  rcases migrate_users_table f w with hu | hu
  · simpa [Postgres.emails, hu] using h
  · have := migrateUsers_nodup f (yielded (f.cursor w.mongoCalls) w.mongo.users)
      { w with mongoCalls := w.mongoCalls + 1 } h
    simpa [Postgres.emails, hu] using this

/-- A run in which no insert fails for an outside reason logs no insert error,
whatever the tables hold and whatever the cursors do. -/
theorem migrate_insertErrors (f : Faults) (w : World) (hins : InsertsSucceed f w) :
    insertErrors (migrateDataFromMongoToPostgres f w).1.logged = insertErrors w.logged := by
  have hnu := (decodable_yielded (f.cursor w.mongoCalls) w.mongo.users).length_le
  have hnp := (decodable_yielded (f.cursor (w.mongoCalls + 1)) w.mongo.products).length_le
  have husers : insertErrors
      (migrateUsers f (yielded (f.cursor w.mongoCalls) w.mongo.users)
        { w with mongoCalls := w.mongoCalls + 1 }).logged = insertErrors w.logged := by
    apply migrateUsers_insertErrors
    intro k hk1 hk2
    exact hins k hk1 (by simp only at hk2; omega)
  rcases migrate_cases f w with h1 | ⟨h1, h2⟩ | hopen
  · rw [migrate_users_cursor_error f w h1]
  · rw [migrate_products_cursor_error f w h1 h2]
    exact husers
  · rw [migrate_cursors_open f w hopen, migrateProducts_insertErrors]
    · exact husers
    · obtain ⟨hlog, -, -, -, -⟩ :=
        migrateUsers_frame f (yielded (f.cursor w.mongoCalls) w.mongo.users)
          { w with mongoCalls := w.mongoCalls + 1 }
      simp only at hlog
      intro k hk1 hk2
      simp only [hlog, List.length_append, List.length_map] at hk1 hk2
      exact hins k (by omega) (by omega)

/-- When both cursors open and yield every document, the statements the run
passes to the relational store are one insert per decodable user, in source
order, then one insert per decodable product, in source order. -/
theorem migrate_execLog (f : Faults) (w : World) (hopen : CursorsOpen f w)
    (hdrain : CursorsDrain f w) :
    (migrateDataFromMongoToPostgres f w).1.execLog
      = w.execLog ++ (decodable w.mongo.users).map (Stmt.insertUser true)
          ++ (decodable w.mongo.products).map Stmt.insertProduct := by
  rw [migrate_cursors_open f w hopen, hdrain.1, hdrain.2]
  obtain ⟨hlog, -, -, -, -⟩ :=
    migrateUsers_frame f w.mongo.users { w with mongoCalls := w.mongoCalls + 1 }
  simp only at hlog
  rw [(migrateProducts_frame f w.mongo.products _).1]
  simp only [hlog]

/-- C4 fails as stated: with both cursors opening in both runs, the second run
adds a row the first run did not. Once because the only insert of the first
run failed (it was logged and the run went on), once because the users cursor
of the first run failed before it yielded the document. -/
theorem migrate_second_run_adds_row :
    (CursorsOpen firstExecFails oneUserOneProduct ∧
      CursorsOpen firstExecFails
        (migrateDataFromMongoToPostgres firstExecFails oneUserOneProduct).1 ∧
      (migrateDataFromMongoToPostgres firstExecFails oneUserOneProduct).1.pg.users = [] ∧
      (migrateDataFromMongoToPostgres firstExecFails
        (migrateDataFromMongoToPostgres firstExecFails oneUserOneProduct).1).1.pg.users
        = [userA]) ∧
    (CursorsOpen firstCursorFailsAtOnce oneUserOneProduct ∧
      CursorsOpen firstCursorFailsAtOnce
        (migrateDataFromMongoToPostgres firstCursorFailsAtOnce oneUserOneProduct).1 ∧
      (migrateDataFromMongoToPostgres firstCursorFailsAtOnce oneUserOneProduct).1.pg.users
        = [] ∧
      (migrateDataFromMongoToPostgres firstCursorFailsAtOnce
        (migrateDataFromMongoToPostgres firstCursorFailsAtOnce oneUserOneProduct).1).1.pg.users
        = [userA]) :=
  ⟨⟨⟨rfl, rfl⟩, ⟨rfl, rfl⟩, by decide, by decide⟩,
   ⟨⟨rfl, rfl⟩, ⟨rfl, rfl⟩, by decide, by decide⟩⟩

/-- C4 as amended: on a `users` table whose e-mails are pairwise distinct (the
table is `UNIQUE` on `email`), no two rows share an e-mail after any run,
whatever fails. After a first run in which both cursors opened, the users
cursor yielded every document and no user insert failed, a second run leaves
the `users` table exactly as the first run left it, whatever fails in it: its
inserts are passed to the store again (all of them when its cursors open and
yield every document), each meets its e-mail in the table, is skipped and is
no error, so that no insert error is logged unless the store itself fails an
insert. The last part states this of the statement itself. -/
theorem migrate_users_idempotent (w : World) (hunique : w.pg.emails.Nodup) :
    (∀ f : Faults, (migrateDataFromMongoToPostgres f w).1.pg.emails.Nodup) ∧
    (∀ f1 f2 : Faults, CursorsOpen f1 w → UsersCursorDrains f1 w → UserInsertsSucceed f1 w →
      (migrateDataFromMongoToPostgres f2 (migrateDataFromMongoToPostgres f1 w).1).1.pg.users
        = (migrateDataFromMongoToPostgres f1 w).1.pg.users ∧
      (migrateDataFromMongoToPostgres f2
        (migrateDataFromMongoToPostgres f1 w).1).1.pg.emails.Nodup ∧
      (InsertsSucceed f2 (migrateDataFromMongoToPostgres f1 w).1 →
        insertErrors (migrateDataFromMongoToPostgres f2
            (migrateDataFromMongoToPostgres f1 w).1).1.logged
          = insertErrors (migrateDataFromMongoToPostgres f1 w).1.logged) ∧
      (CursorsOpen f2 (migrateDataFromMongoToPostgres f1 w).1 →
        CursorsDrain f2 (migrateDataFromMongoToPostgres f1 w).1 →
        (migrateDataFromMongoToPostgres f2 (migrateDataFromMongoToPostgres f1 w).1).1.execLog
          = (migrateDataFromMongoToPostgres f1 w).1.execLog
              ++ (decodable w.mongo.users).map (Stmt.insertUser true)
              ++ (decodable w.mongo.products).map Stmt.insertProduct)) ∧
    (∀ (f : Faults) (w0 : World) (u : User),
      u.Email ∈ w0.pg.emails → f.pg w0.execLog.length = false →
      (Exec f w0 (.insertUser true u)).2 = none ∧
      (Exec f w0 (.insertUser true u)).1.pg = w0.pg) := by
  refine ⟨fun f => migrate_nodup f w hunique, ?_, ?_⟩
  · intro f1 f2 hopen hdrain hins
    have hmongo := migrate_mongo f1 w
    refine ⟨?_, migrate_nodup f2 _ (migrate_nodup f1 w hunique),
      fun h2 => migrate_insertErrors f2 _ h2, ?_⟩
    · have hpresent := migrateUsers_present f1 w.mongo.users
        { w with mongoCalls := w.mongoCalls + 1 } hins
      have husers : (migrateDataFromMongoToPostgres f1 w).1.pg.users
          = (migrateUsers f1 w.mongo.users
              { w with mongoCalls := w.mongoCalls + 1 }).pg.users := by
        have hd : yielded (f1.cursor w.mongoCalls) w.mongo.users = w.mongo.users := hdrain
        rw [migrate_cursors_open f1 w hopen, hd]
        exact (migrateProducts_frame f1 _ _).2.2.2.2
      rcases migrate_users_table f2 (migrateDataFromMongoToPostgres f1 w).1 with h | h
      · exact h
      · rw [h]
        apply migrateUsers_noop
        intro u hu
        have hu2 := (decodable_yielded _ _).subset hu
        rw [hmongo] at hu2
        have := hpresent u hu2
        simpa [Postgres.emails, husers] using this
    · intro hopen2 hdrain2
      have := migrate_execLog f2 _ hopen2 hdrain2
      rw [hmongo] at this
      exact this
  · intro f w0 u hm hf
    simp [Exec, hf, hm]

/-- C4 as amended, at a concrete input: two runs on 3 users and 2 products,
nothing failing. -/
theorem migrate_users_idempotent_witness :
    (migrateDataFromMongoToPostgres noFaults threeUsersTwoProducts).1.pg.emails.Nodup ∧
    ((migrateDataFromMongoToPostgres noFaults
        (migrateDataFromMongoToPostgres noFaults threeUsersTwoProducts).1).1.pg.users
        = (migrateDataFromMongoToPostgres noFaults threeUsersTwoProducts).1.pg.users ∧
      insertErrors (migrateDataFromMongoToPostgres noFaults
          (migrateDataFromMongoToPostgres noFaults threeUsersTwoProducts).1).1.logged
        = insertErrors (migrateDataFromMongoToPostgres noFaults threeUsersTwoProducts).1.logged ∧
      (migrateDataFromMongoToPostgres noFaults
          (migrateDataFromMongoToPostgres noFaults threeUsersTwoProducts).1).1.execLog
        = (migrateDataFromMongoToPostgres noFaults threeUsersTwoProducts).1.execLog
            ++ (decodable threeUsersTwoProducts.mongo.users).map (Stmt.insertUser true)
            ++ (decodable threeUsersTwoProducts.mongo.products).map Stmt.insertProduct) ∧
    ((Exec noFaults (migrateDataFromMongoToPostgres noFaults threeUsersTwoProducts).1
        (.insertUser true userA)).2 = none ∧
      (Exec noFaults (migrateDataFromMongoToPostgres noFaults threeUsersTwoProducts).1
        (.insertUser true userA)).1.pg
        = (migrateDataFromMongoToPostgres noFaults threeUsersTwoProducts).1.pg) :=
  have h := migrate_users_idempotent threeUsersTwoProducts (by decide)
  have h2 := h.2.1 noFaults noFaults ⟨rfl, rfl⟩ rfl (fun _ _ _ => rfl)
  ⟨h.1 noFaults,
   ⟨h2.1, h2.2.2.1 (fun _ _ _ => rfl), h2.2.2.2 ⟨rfl, rfl⟩ ⟨rfl, rfl⟩⟩,
   h.2.2 noFaults _ userA (by decide) rfl⟩

/-- C6 fails as stated: when the users cursor does not open, the run returns
the error and the decodable product of the source is not inserted; no
statement at all reaches the relational store. -/
theorem migrate_users_cursor_error_skips_products :
    (migrateDataFromMongoToPostgres firstMongoCallFails oneUserOneProduct).2
      = some (.mongo 0) ∧
    decodable oneUserOneProduct.mongo.products = [pen] ∧
    (migrateDataFromMongoToPostgres firstMongoCallFails oneUserOneProduct).1.pg.products = [] ∧
    (migrateDataFromMongoToPostgres firstMongoCallFails oneUserOneProduct).1.execLog = [] := by
  decide

/-- C6 as amended: an error opening a cursor is returned at once. When the
users cursor does not open, nothing is migrated: the relational store and the
statement log are unchanged and the products cursor is never asked for. When
the users cursor opens and the products cursor does not, the error is
returned after the whole users loop, whose effects stay (one insert per
decodable user the cursor yielded, which is every decodable user when the
cursor yields every document); no product is inserted. -/
theorem migrate_cursor_error_returned (f : Faults) (w : World) :
    (f.mongo w.mongoCalls = true →
      (migrateDataFromMongoToPostgres f w).2 = some (.mongo w.mongoCalls) ∧
      (migrateDataFromMongoToPostgres f w).1.pg = w.pg ∧
      (migrateDataFromMongoToPostgres f w).1.execLog = w.execLog ∧
      (migrateDataFromMongoToPostgres f w).1.mongoCalls = w.mongoCalls + 1) ∧
    (f.mongo w.mongoCalls = false → f.mongo (w.mongoCalls + 1) = true →
      (migrateDataFromMongoToPostgres f w).2 = some (.mongo (w.mongoCalls + 1)) ∧
      (migrateDataFromMongoToPostgres f w).1.pg
        = (migrateUsers f (yielded (f.cursor w.mongoCalls) w.mongo.users)
            { w with mongoCalls := w.mongoCalls + 1 }).pg ∧
      (migrateDataFromMongoToPostgres f w).1.execLog
        = w.execLog ++ (decodable (yielded (f.cursor w.mongoCalls) w.mongo.users)).map
            (Stmt.insertUser true) ∧
      (UsersCursorDrains f w →
        (migrateDataFromMongoToPostgres f w).1.pg
          = (migrateUsers f w.mongo.users { w with mongoCalls := w.mongoCalls + 1 }).pg ∧
        (migrateDataFromMongoToPostgres f w).1.execLog
          = w.execLog ++ (decodable w.mongo.users).map (Stmt.insertUser true)) ∧
      (migrateDataFromMongoToPostgres f w).1.pg.products = w.pg.products) := by
  constructor
  · intro h
    rw [migrate_users_cursor_error f w h]
    exact ⟨rfl, rfl, rfl, rfl⟩
  · intro h1 h2
    rw [migrate_products_cursor_error f w h1 h2]
    obtain ⟨hlog, -, -, -, hp⟩ :=
      migrateUsers_frame f (yielded (f.cursor w.mongoCalls) w.mongo.users)
        { w with mongoCalls := w.mongoCalls + 1 }
    refine ⟨rfl, rfl, hlog, ?_, hp⟩
    intro hdrain
    have hd : yielded (f.cursor w.mongoCalls) w.mongo.users = w.mongo.users := hdrain
    rw [hd] at hlog ⊢
    exact ⟨rfl, hlog⟩

/-- C6 as amended, at concrete inputs: the first, then the second `Find` fails. -/
theorem migrate_cursor_error_returned_witness :
    ((migrateDataFromMongoToPostgres firstMongoCallFails oneUserOneProduct).2
        = some (.mongo 0) ∧
      (migrateDataFromMongoToPostgres firstMongoCallFails oneUserOneProduct).1.pg
        = oneUserOneProduct.pg) ∧
    ((migrateDataFromMongoToPostgres secondMongoCallFails oneUserOneProduct).2
        = some (.mongo 1) ∧
      (migrateDataFromMongoToPostgres secondMongoCallFails oneUserOneProduct).1.execLog
        = [.insertUser true userA]) :=
  have h1 := (migrate_cursor_error_returned firstMongoCallFails oneUserOneProduct).1 rfl
  have h2 := (migrate_cursor_error_returned secondMongoCallFails oneUserOneProduct).2 rfl rfl
  ⟨⟨h1.1, h1.2.1⟩, ⟨h2.1, (h2.2.2.2.1 rfl).2⟩⟩

/-- C7 fails as stated: both cursors open and each fails once it has yielded
one document. The run returns `nil`, and of the 3 decodable users and the 2
decodable products only the first user and the first product were passed to
the relational store. -/
theorem migrate_cursor_failure_skips_records :
    CursorsOpen cursorsFailAfterOne threeUsersTwoProducts ∧
    (migrateDataFromMongoToPostgres cursorsFailAfterOne threeUsersTwoProducts).2 = none ∧
    decodable threeUsersTwoProducts.mongo.users = [userA, userB, userC] ∧
    decodable threeUsersTwoProducts.mongo.products = [pen, ink] ∧
    (migrateDataFromMongoToPostgres cursorsFailAfterOne threeUsersTwoProducts).1.execLog
      = [.insertUser true userA, .insertProduct pen] :=
  ⟨⟨rfl, rfl⟩, by decide, by decide, by decide, by decide⟩

/-- C7 as amended: when both cursors open and yield every document, the run
returns `nil`, whatever documents fail to decode and whatever inserts fail,
and the statements it passed to the relational store are exactly one insert
per decodable user, in source order, followed by one insert per decodable
product, in source order. -/
theorem migrate_attempts_every_decodable (f : Faults) (w : World) (hopen : CursorsOpen f w)
    (hdrain : CursorsDrain f w) :
    (migrateDataFromMongoToPostgres f w).2 = none ∧
    (migrateDataFromMongoToPostgres f w).1.execLog
      = w.execLog ++ (decodable w.mongo.users).map (Stmt.insertUser true)
          ++ (decodable w.mongo.products).map Stmt.insertProduct := by
  refine ⟨?_, migrate_execLog f w hopen hdrain⟩
  rw [migrate_cursors_open f w hopen]

/-- C7 as amended, at a concrete input: documents that do not decode and a
failing first insert; the later records are attempted all the same. -/
theorem migrate_attempts_every_decodable_witness :
    (migrateDataFromMongoToPostgres firstExecFails mixedDocuments).2 = none ∧
    (migrateDataFromMongoToPostgres firstExecFails mixedDocuments).1.execLog
      = [.insertUser true userA, .insertUser true userB, .insertProduct pen] :=
  migrate_attempts_every_decodable firstExecFails mixedDocuments ⟨rfl, rfl⟩ ⟨rfl, rfl⟩

/-- C8 fails as stated: the migration returns an `error` value only. On 3
users and 2 products it returns `nil`, the value it also returns on an empty
document store, so no count can be read from what it returns. -/
theorem migrate_returns_no_report :
    (migrateDataFromMongoToPostgres noFaults threeUsersTwoProducts).2 = none ∧
    (migrateDataFromMongoToPostgres noFaults emptyWorld).2 = none ∧
    ¬ ∃ attempted : Option Error → Nat,
        attempted (migrateDataFromMongoToPostgres noFaults threeUsersTwoProducts).2 = 5 ∧
        attempted (migrateDataFromMongoToPostgres noFaults emptyWorld).2 = 0 := by
  refine ⟨by decide, by decide, ?_⟩
  rintro ⟨attempted, h5, h0⟩
  have e1 : (migrateDataFromMongoToPostgres noFaults threeUsersTwoProducts).2 = none := by
    decide
  have e2 : (migrateDataFromMongoToPostgres noFaults emptyWorld).2 = none := by decide
  rw [e1] at h5
  rw [e2] at h0
  omega

/-- C8 as amended: on 3 users with e-mails of their own and 2 products, an
empty relational store and no store failure, the migration returns `nil`
(it has no report to return); it passed 5 inserts to the relational store,
the `users` table then holds the 3 users, the `products` table the 2 products,
and no failure was logged. -/
theorem migrate_three_users_two_products :
    (migrateDataFromMongoToPostgres noFaults threeUsersTwoProducts).2 = none ∧
    (migrateDataFromMongoToPostgres noFaults threeUsersTwoProducts).1.execLog
      = [.insertUser true userA, .insertUser true userB, .insertUser true userC,
         .insertProduct pen, .insertProduct ink] ∧
    (migrateDataFromMongoToPostgres noFaults threeUsersTwoProducts).1.pg.users
      = [userA, userB, userC] ∧
    (migrateDataFromMongoToPostgres noFaults threeUsersTwoProducts).1.pg.products
      = [pen, ink] ∧
    (migrateDataFromMongoToPostgres noFaults threeUsersTwoProducts).1.logged = [] := by
  decide

/-- When both cursors open and yield every document and no insert fails, a run
appends the decodable products of the source to the `products` table. -/
theorem migrate_products_table (f : Faults) (w : World)
    (hopen : CursorsOpen f w) (hdrain : CursorsDrain f w) (hins : InsertsSucceed f w) :
    (migrateDataFromMongoToPostgres f w).1.pg.products
      = w.pg.products ++ decodable w.mongo.products := by
  rw [migrate_cursors_open f w hopen, hdrain.1, hdrain.2]
  obtain ⟨hlog, -, -, -, hp⟩ :=
    migrateUsers_frame f w.mongo.users { w with mongoCalls := w.mongoCalls + 1 }
  simp only at hlog hp
  rw [migrateProducts_appends]
  · simp only [hp]
  · intro k hk1 hk2
    simp only [hlog, List.length_append, List.length_map] at hk1 hk2
    apply hins k
    · omega
    · omega

/-- C9 fails as stated: no insert fails and yet fewer rows than decodable
source products are appended. Once because the products cursor does not open
(2 decodable products, no row appended, nothing logged), once because both
cursors open and the products cursor fails once it has yielded one document
(2 decodable products, 1 row appended). -/
theorem migrate_products_not_all_appended :
    (InsertsSucceed secondMongoCallFails threeUsersTwoProducts ∧
      decodable threeUsersTwoProducts.mongo.products = [pen, ink] ∧
      (migrateDataFromMongoToPostgres secondMongoCallFails threeUsersTwoProducts).1.pg.products
        = [] ∧
      insertErrors
        (migrateDataFromMongoToPostgres secondMongoCallFails threeUsersTwoProducts).1.logged
        = []) ∧
    (InsertsSucceed cursorsFailAfterOne threeUsersTwoProducts ∧
      CursorsOpen cursorsFailAfterOne threeUsersTwoProducts ∧
      (migrateDataFromMongoToPostgres cursorsFailAfterOne threeUsersTwoProducts).1.pg.products
        = [pen] ∧
      insertErrors
        (migrateDataFromMongoToPostgres cursorsFailAfterOne threeUsersTwoProducts).1.logged
        = []) :=
  ⟨⟨fun _ _ _ => rfl, by decide, by decide, by decide⟩,
   ⟨fun _ _ _ => rfl, ⟨rfl, rfl⟩, by decide, by decide⟩⟩

/-- C9 as amended: when both cursors open and yield every document and no
insert fails, one run appends to the `products` table exactly the decodable
products of the source, one row each with the same name, price and
description, whatever the table held. A second such run appends them again,
so every source product then has at least two identical rows. -/
theorem migrate_products_no_dedup (f1 f2 : Faults) (w : World)
    (hopen1 : CursorsOpen f1 w) (hdrain1 : CursorsDrain f1 w) (hins1 : InsertsSucceed f1 w)
    (hopen2 : CursorsOpen f2 (migrateDataFromMongoToPostgres f1 w).1)
    (hdrain2 : CursorsDrain f2 (migrateDataFromMongoToPostgres f1 w).1)
    (hins2 : InsertsSucceed f2 (migrateDataFromMongoToPostgres f1 w).1) :
    (migrateDataFromMongoToPostgres f1 w).1.pg.products
      = w.pg.products ++ decodable w.mongo.products ∧
    (migrateDataFromMongoToPostgres f1 w).1.pg.products.length
      = w.pg.products.length + (decodable w.mongo.products).length ∧
    (migrateDataFromMongoToPostgres f2 (migrateDataFromMongoToPostgres f1 w).1).1.pg.products
      = w.pg.products ++ decodable w.mongo.products ++ decodable w.mongo.products ∧
    ∀ p ∈ decodable w.mongo.products,
      2 ≤ (migrateDataFromMongoToPostgres f2
            (migrateDataFromMongoToPostgres f1 w).1).1.pg.products.count p := by
  have h1 := migrate_products_table f1 w hopen1 hdrain1 hins1
  have h2 := migrate_products_table f2 _ hopen2 hdrain2 hins2
  rw [migrate_mongo f1 w, h1] at h2
  refine ⟨h1, by rw [h1, List.length_append], h2, ?_⟩
  intro p hp
  rw [h2, List.count_append, List.count_append]
  have : 1 ≤ (decodable w.mongo.products).count p := List.count_pos_iff.mpr hp
  omega

/-- C9 as amended, at a concrete input: two runs on 3 users and 2 products,
nothing failing. -/
theorem migrate_products_no_dedup_witness :
    (migrateDataFromMongoToPostgres noFaults threeUsersTwoProducts).1.pg.products
      = [pen, ink] ∧
    (migrateDataFromMongoToPostgres noFaults
      (migrateDataFromMongoToPostgres noFaults threeUsersTwoProducts).1).1.pg.products
      = [pen, ink, pen, ink] :=
  have h := migrate_products_no_dedup noFaults noFaults threeUsersTwoProducts
    ⟨rfl, rfl⟩ ⟨rfl, rfl⟩ (fun _ _ _ => rfl) ⟨rfl, rfl⟩ ⟨rfl, rfl⟩ (fun _ _ _ => rfl)
  ⟨h.1, h.2.2.1⟩

/-! ## The schema initialiser -/

/-- What one `CREATE TABLE IF NOT EXISTS` does, whatever fails: it logs the
statement, keeps the rows and every table of the catalogue, and changes the
catalogue only by adding the table when the name is free. -/
theorem Exec_createTable (f : Faults) (w : World) (name : String) (columns : TableDef) :
    (Exec f w (.createTableIfNotExists name columns)).1.execLog.length
      = w.execLog.length + 1 ∧
    (Exec f w (.createTableIfNotExists name columns)).1.pg.users = w.pg.users ∧
    (Exec f w (.createTableIfNotExists name columns)).1.pg.products = w.pg.products ∧
    (∀ n d, w.pg.catalog.lookup n = some d →
      (Exec f w (.createTableIfNotExists name columns)).1.pg.catalog.lookup n = some d) ∧
    ((w.pg.catalog.lookup name).isSome = true →
      (Exec f w (.createTableIfNotExists name columns)).1.pg.catalog = w.pg.catalog) ∧
    (f.pg w.execLog.length = false →
      (Exec f w (.createTableIfNotExists name columns)).2 = none ∧
      ((Exec f w (.createTableIfNotExists name columns)).1.pg.catalog.lookup name).isSome
        = true) := by
  by_cases hf : f.pg w.execLog.length = true
  · simp [Exec, hf]
  · by_cases hc : (w.pg.catalog.lookup name).isSome = true
    · simp [Exec, hf, hc]
    · simp only [Exec, hf, hc]
      refine ⟨by simp, by simp, by simp, ?_, ?_, ?_⟩
      · intro n d hn
        simp [List.lookup_append, hn]
      · intro h
        exact absurd h (by decide)
      · intro _
        have hnone : w.pg.catalog.lookup name = none := by
          cases hl : w.pg.catalog.lookup name with
          | none => rfl
          | some d => simp [hl] at hc
        simp [List.lookup_append, hnone]

/-- What one call of `migratePostgresDB` does, whatever fails. -/
theorem migratePostgresDB_frame (f : Faults) (w : World) :
    (migratePostgresDB f w).1.pg.users = w.pg.users ∧
    (migratePostgresDB f w).1.pg.products = w.pg.products ∧
    (∀ n d, w.pg.catalog.lookup n = some d →
      (migratePostgresDB f w).1.pg.catalog.lookup n = some d) ∧
    ((w.pg.catalog.lookup "users").isSome = true →
      (w.pg.catalog.lookup "products").isSome = true →
      (migratePostgresDB f w).1.pg.catalog = w.pg.catalog) := by
  obtain ⟨-, a2, a3, a4, a5, -⟩ := Exec_createTable f w "users" usersTable
  rcases hE : Exec f w (.createTableIfNotExists "users" usersTable) with ⟨w1, e1⟩
  rw [hE] at a2 a3 a4 a5
  simp only at a2 a3 a4 a5
  cases e1 with
  | some e =>
    simp only [migratePostgresDB, hE]
    exact ⟨a2, a3, a4, fun hu _ => a5 hu⟩
  | none =>
    obtain ⟨-, b2, b3, b4, b5, -⟩ := Exec_createTable f w1 "products" productsTable
    simp only [migratePostgresDB, hE]
    refine ⟨b2.trans a2, b3.trans a3, fun n d hn => b4 n d (a4 n d hn), ?_⟩
    intro hu hp
    have hcat := a5 hu
    rw [b5 (by rw [hcat]; exact hp), hcat]

/-- A call of `migratePostgresDB` whose two statements do not fail returns
`nil`, logs two statements and leaves both tables in the catalogue. -/
theorem migratePostgresDB_ok (f : Faults) (w : World)
    (h0 : f.pg w.execLog.length = false) (h1 : f.pg (w.execLog.length + 1) = false) :
    (migratePostgresDB f w).2 = none ∧
    (migratePostgresDB f w).1.execLog.length = w.execLog.length + 2 ∧
    ((migratePostgresDB f w).1.pg.catalog.lookup "users").isSome = true ∧
    ((migratePostgresDB f w).1.pg.catalog.lookup "products").isSome = true := by
  obtain ⟨a1, -, -, -, -, a6⟩ := Exec_createTable f w "users" usersTable
  obtain ⟨a7, a8⟩ := a6 h0
  rcases hE : Exec f w (.createTableIfNotExists "users" usersTable) with ⟨w1, e1⟩
  rw [hE] at a1 a7 a8
  simp only at a1 a7 a8
  subst a7
  obtain ⟨b1, -, -, b4, -, b6⟩ := Exec_createTable f w1 "products" productsTable
  obtain ⟨b7, b8⟩ := b6 (by rw [a1]; exact h1)
  simp only [migratePostgresDB, hE]
  refine ⟨b7, by rw [b1, a1], ?_, b8⟩
  cases hl : w1.pg.catalog.lookup "users" with
  | none => simp [hl] at a8
  | some d => simp [b4 "users" d hl]

/-- Once both tables are in the catalogue, further calls leave it as it is,
whatever fails. -/
theorem migratePostgresDBTimes_catalog (f : Faults) (n : Nat) (w : World)
    (hu : (w.pg.catalog.lookup "users").isSome = true)
    (hp : (w.pg.catalog.lookup "products").isSome = true) :
    (migratePostgresDBTimes f n w).pg.catalog = w.pg.catalog := by
  induction n generalizing w with
  | zero => rfl
  | succ n ih =>
    have hcat := (migratePostgresDB_frame f w).2.2.2 hu hp
    simp only [migratePostgresDBTimes]
    rw [ih _ (by rw [hcat]; exact hu) (by rw [hcat]; exact hp), hcat]

/-- Calls in a row keep the rows and every table of the catalogue, whatever fails. -/
theorem migratePostgresDBTimes_frame (f : Faults) (n : Nat) (w : World) :
    (migratePostgresDBTimes f n w).pg.users = w.pg.users ∧
    (migratePostgresDBTimes f n w).pg.products = w.pg.products ∧
    (∀ name d, w.pg.catalog.lookup name = some d →
      (migratePostgresDBTimes f n w).pg.catalog.lookup name = some d) := by
  induction n generalizing w with
  | zero => exact ⟨rfl, rfl, fun _ _ h => h⟩
  | succ n ih =>
    obtain ⟨a1, a2, a3, -⟩ := migratePostgresDB_frame f w
    obtain ⟨i1, i2, i3⟩ := ih (migratePostgresDB f w).1
    simp only [migratePostgresDBTimes]
    exact ⟨i1.trans a1, i2.trans a2, fun name d h => i3 name d (a3 name d h)⟩

/-- While no statement fails, every call in a row returns `nil`. -/
theorem migratePostgresDBTimes_ok (f : Faults) (n : Nat) (w : World)
    (h : ∀ k, w.execLog.length ≤ k → k < w.execLog.length + 2 * (n + 1) → f.pg k = false) :
    (migratePostgresDB f (migratePostgresDBTimes f n w)).2 = none := by
  induction n generalizing w with
  | zero =>
    exact (migratePostgresDB_ok f w (h _ (Nat.le_refl _) (by omega))
      (h _ (by omega) (by omega))).1
  | succ n ih =>
    obtain ⟨-, hlen, -, -⟩ := migratePostgresDB_ok f w (h _ (Nat.le_refl _) (by omega))
      (h _ (by omega) (by omega))
    simp only [migratePostgresDBTimes]
    apply ih
    intro k hk1 hk2
    rw [hlen] at hk1 hk2
    exact h k (by omega) (by omega)

/-- C10: `migratePostgresDB` is idempotent. Whatever fails, calls in a row
never drop or alter a table that exists (every table of the catalogue keeps
its columns, and the rows of `users` and `products` stay). When no statement
fails, `N ≥ 1` calls leave the catalogue that one call leaves and every one of
them returns `nil`. -/
theorem migratePostgresDB_idempotent (w : World) :
    (∀ (f : Faults) (N : Nat) (name : String) (d : TableDef),
      w.pg.catalog.lookup name = some d →
      (migratePostgresDBTimes f N w).pg.catalog.lookup name = some d) ∧
    (∀ (f : Faults) (N : Nat),
      (migratePostgresDBTimes f N w).pg.users = w.pg.users ∧
      (migratePostgresDBTimes f N w).pg.products = w.pg.products) ∧
    (∀ (f : Faults) (N : Nat), 1 ≤ N →
      (∀ k, w.execLog.length ≤ k → k < w.execLog.length + 2 * N → f.pg k = false) →
      (migratePostgresDBTimes f N w).pg.catalog = (migratePostgresDB f w).1.pg.catalog ∧
      ∀ n, n < N → (migratePostgresDB f (migratePostgresDBTimes f n w)).2 = none) := by
  refine ⟨fun f N name d h => (migratePostgresDBTimes_frame f N w).2.2 name d h,
    fun f N => ⟨(migratePostgresDBTimes_frame f N w).1, (migratePostgresDBTimes_frame f N w).2.1⟩,
    ?_⟩
  intro f N hN hf
  constructor
  · obtain ⟨M, rfl⟩ : ∃ M, N = M + 1 := ⟨N - 1, by omega⟩
    obtain ⟨-, -, hu, hp⟩ := migratePostgresDB_ok f w (hf _ (Nat.le_refl _) (by omega))
      (hf _ (by omega) (by omega))
    simp only [migratePostgresDBTimes]
    exact migratePostgresDBTimes_catalog f M _ hu hp
  · intro n hn
    apply migratePostgresDBTimes_ok
    intro k hk1 hk2
    exact hf k hk1 (by omega)

/-- C10 at concrete inputs: three calls on a database with no table, and on a
database where a `users` table of another structure exists. -/
theorem migratePostgresDB_idempotent_witness :
    ((migratePostgresDBTimes noFaults 3 freshDatabase).pg.catalog
        = (migratePostgresDB noFaults freshDatabase).1.pg.catalog ∧
      (migratePostgresDB noFaults (migratePostgresDBTimes noFaults 2 freshDatabase)).2 = none) ∧
    (migratePostgresDBTimes noFaults 3 legacyDatabase).pg.catalog.lookup "users"
      = some [⟨"login", .text, true, false, false⟩] :=
  have h1 := (migratePostgresDB_idempotent freshDatabase).2.2 noFaults 3 (by decide)
    (fun _ _ _ => rfl)
  ⟨⟨h1.1, h1.2 2 (by decide)⟩,
   (migratePostgresDB_idempotent legacyDatabase).1 noFaults 3 "users" _ (by decide)⟩

end Migration
